import Mathlib

/-!
Verification development for the Restaurant-Scraping-Analytics-System backend.

The definitions below are shallow embeddings of functions from
src/backend/main_api.py, src/backend/scrapper_service.py and
src/backend/database_manager.py.  Python floats are modelled as rationals,
Python lists as Lean lists, Python strings as Lean strings (lists of
characters), and fallible paths as Option/Except values.  Each definition
carries a comment naming the source function and lines it embeds.
-/

/-- Python round-half-to-even of a rational to an integer (the semantics of
the builtin round on exact values). -/
def roundHalfToEven (q : ℚ) : ℤ :=
  let f : ℤ := ⌊q⌋
  let r : ℚ := q - (f : ℚ)
  if r < 1/2 then f
  else if 1/2 < r then f + 1
  else if f % 2 = 0 then f else f + 1

/-- Python round(q, ndigits) on exact rational values. -/
def pyRound (ndigits : ℕ) (q : ℚ) : ℚ :=
  (roundHalfToEven (q * (10 : ℚ) ^ ndigits) : ℚ) / (10 : ℚ) ^ ndigits

/-- Insertion step of an ascending sort on rationals. -/
def insertSorted (x : ℚ) : List ℚ → List ℚ
  | [] => [x]
  | y :: ys => if x ≤ y then x :: y :: ys else y :: insertSorted x ys

/-- Ascending sort on rationals, modelling the Python list.sort() call. -/
def sortQ (l : List ℚ) : List ℚ := l.foldr insertSorted []

/-- Python min() over a nonempty list (0 on the empty list, which the
embedded callers never pass). -/
def listMinQ : List ℚ → ℚ
  | [] => 0
  | x :: xs => xs.foldl min x

/-- Python max() over a nonempty list (0 on the empty list, which the
embedded callers never pass). -/
def listMaxQ : List ℚ → ℚ
  | [] => 0
  | x :: xs => xs.foldl max x

/-- Sum of a list of rationals (Python sum()). -/
def sumQ (l : List ℚ) : ℚ := l.foldl (· + ·) 0

/-- statistics.median: middle element of the sorted list for odd length,
average of the two middle elements for even length. -/
def statisticsMedian (l : List ℚ) : ℚ :=
  let s := sortQ l
  let n := s.length
  if n = 0 then 0
  else if n % 2 = 1 then s.getD (n / 2) 0
  else (s.getD (n / 2 - 1) 0 + s.getD (n / 2) 0) / 2

/-- A menu item as handled by main_api.py: the extraction code always sets
the four keys name, price, description, category (price defaults to 0.0). -/
structure RawItem where
  name : String
  price : ℚ
  description : String
  category : String
deriving DecidableEq

/-- Price statistics dictionary of RealTimeRestaurantScraper._calculate_price_stats
(main_api.py:577-595). -/
structure PriceStats where
  min : ℚ
  max : ℚ
  mean : ℚ
  median : ℚ
  count : ℕ
deriving DecidableEq

/-- RealTimeRestaurantScraper._calculate_price_stats (main_api.py:577-595):
keeps prices strictly greater than 0, sorts them, and reports min, max,
mean rounded to 2 decimals, the element at index len//2 of the sorted list
as median, and the count.  Returns all zeros when no price is positive. -/
def _calculate_price_stats (items : List RawItem) : PriceStats :=
  let prices := (items.map (fun it => it.price)).filter (fun p => 0 < p)
  if prices.isEmpty then ⟨0, 0, 0, 0, 0⟩
  else
    let s := sortQ prices
    { min := listMinQ s
      max := listMaxQ s
      mean := pyRound 2 (sumQ s / (s.length : ℚ))
      median := s.getD (s.length / 2) 0
      count := s.length }

/-- A menu item as handled by scrapper_service.py, where a price may be
absent (None). -/
structure SItem where
  price : Option ℚ
deriving DecidableEq

/-- Price statistics dictionary of
RestaurantScraperService._calculate_detailed_price_stats
(scrapper_service.py:248-272).  The std_dev field (a real square root, no
claim concerns it) is omitted; every other field is embedded. -/
structure DetailedPriceStats where
  min : ℚ
  max : ℚ
  mean : ℚ
  median : ℚ
  count : ℕ
  budget : ℕ
  moderate : ℕ
  premium : ℕ
deriving DecidableEq

/-- RestaurantScraperService._calculate_detailed_price_stats
(scrapper_service.py:248-272): keeps every price that is not None
(zero and negative prices included), and reports min, max, mean and
median (statistics.median) rounded to 2 decimals, the count, and
budget/moderate/premium range counts. -/
def _calculate_detailed_price_stats (items : List SItem) : DetailedPriceStats :=
  let prices := items.filterMap (fun it => it.price)
  if prices.isEmpty then ⟨0, 0, 0, 0, 0, 0, 0, 0⟩
  else
    { min := listMinQ prices
      max := listMaxQ prices
      mean := pyRound 2 (sumQ prices / (prices.length : ℚ))
      median := pyRound 2 (statisticsMedian prices)
      count := prices.length
      budget := (prices.filter (fun p => p < 10)).length
      moderate := (prices.filter (fun p => 10 ≤ p && p ≤ 20)).length
      premium := (prices.filter (fun p => 20 < p)).length }

/-- ASCII whitespace recognised by Python str.strip and str.split. -/
def isPyWhitespace (c : Char) : Bool :=
  c = ' ' || c = '\t' || c = '\n' || c = '\r' || c = '\x0b' || c = '\x0c'

/-- Python str.strip() on a character list: drop whitespace from both ends. -/
def stripChars (l : List Char) : List Char :=
  ((l.dropWhile isPyWhitespace).reverse.dropWhile isPyWhitespace).reverse

/-- Python str.strip() on strings. -/
def pyStrip (s : String) : String := ⟨stripChars s.data⟩

/-- A word character of the regex class \w (ASCII model). -/
def isWordChar (c : Char) : Bool := c.isAlphanum || c = '_'

/-- The character class kept by the re.sub call in
RealTimeRestaurantScraper._clean_menu_items (main_api.py:523), which deletes
every character outside the class of word characters, whitespace and the
five punctuation marks minus, ampersand, parentheses and dot. -/
def keepNameChar (c : Char) : Bool :=
  isWordChar c || isPyWhitespace c || c = '-' || c = '&' || c = '(' || c = ')' || c = '.'

/-- Apply the re.sub above: delete every character outside the class. -/
def removeBadChars (l : List Char) : List Char := l.filter keepNameChar

/-- Python str.split() with no separator: split on whitespace runs and drop
empty fields.  The accumulator holds the current word reversed. -/
def splitWsAux : List Char → List Char → List (List Char)
  | [], acc => if acc.isEmpty then [] else [acc.reverse]
  | c :: rest, acc =>
    if isPyWhitespace c then
      if acc.isEmpty then splitWsAux rest [] else acc.reverse :: splitWsAux rest []
    else splitWsAux rest (c :: acc)

/-- Python str.split() with no separator. -/
def splitWs (l : List Char) : List (List Char) := splitWsAux l []

/-- Python join of the words with a single-space separator. -/
def joinSpace (ws : List (List Char)) : List Char := (ws.intersperse [' ']).flatten

/-- The whitespace normalisation of main_api.py:524: split on whitespace and
rejoin with single spaces. -/
def normSpaces (l : List Char) : List Char := joinSpace (splitWs l)

/-- The full name sanitisation applied by _clean_menu_items after the length
check: strip, remove disallowed characters, collapse whitespace. -/
def sanitizeName (s : String) : String := ⟨normSpaces (removeBadChars (stripChars s.data))⟩

/-- Python str.lower() (ASCII model). -/
def lowerStr (s : String) : String := ⟨s.data.map Char.toLower⟩

/-- Python s[:200]. -/
def truncate200 (s : String) : String := ⟨s.data.take 200⟩

/-- The output record _clean_menu_items builds for one surviving item
(main_api.py:532-537). -/
def cleanedOf (it : RawItem) : RawItem :=
  { name := sanitizeName it.name
    price := max 0 it.price
    description := truncate200 (pyStrip it.description)
    category := it.category }

/-- The deduplication key: the lowercased sanitised name. -/
def nameKey (it : RawItem) : String := lowerStr (sanitizeName it.name)

/-- Whether an item survives the emptiness/length check of
main_api.py:518-521 (applied to the stripped raw name, before the
punctuation-stripping re.sub). -/
def validItem (it : RawItem) : Bool :=
  !(pyStrip it.name).data.isEmpty && !((pyStrip it.name).data.length < 3)

/-- Loop body of RealTimeRestaurantScraper._clean_menu_items
(main_api.py:502-540): seen holds the lowercased names already emitted. -/
def cleanAux (seen : List String) : List RawItem → List RawItem
  | [] => []
  | it :: rest =>
    if validItem it then
      if nameKey it ∈ seen then cleanAux seen rest
      else cleanedOf it :: cleanAux (nameKey it :: seen) rest
    else cleanAux seen rest

/-- RealTimeRestaurantScraper._clean_menu_items (main_api.py:502-540).
Items are dicts in the source; the isinstance(item, dict) guard is
vacuously true in this typed embedding. -/
def _clean_menu_items (items : List RawItem) : List RawItem := cleanAux [] items

/-- The condition under which _extract_structured_menu_items keeps a parsed
element (main_api.py:348): the element parsed to a non-empty dict (modelled
as some item), its name is truthy, and the name is longer than 2
characters. -/
def keepStructuredItem : Option RawItem → Option RawItem
  | none => none
  | some it => if it.name ≠ "" && it.name.data.length > 2 then some it else none

/-- RealTimeRestaurantScraper._extract_structured_menu_items
(main_api.py:326-359): selectors are tried in order; the first selector
matching more than 3 elements has its first 30 elements parsed; if that
yields at least one item the loop breaks, otherwise later selectors are
tried.  A page is modelled by the per-selector lists of parsed elements
(none standing for the empty dict returned on a parse error). -/
def _extract_structured_menu_items : List (List (Option RawItem)) → List RawItem
  | [] => []
  | elems :: rest =>
    if elems.length > 3 then
      let items := (elems.take 30).filterMap keepStructuredItem
      if items.isEmpty then _extract_structured_menu_items rest else items
    else _extract_structured_menu_items rest

/-- A fetched page as seen by the generic branch of scrape_restaurant_menu:
the parsed elements each structured selector matches, and the items the two
fallback extractors would produce if executed (their internals scan raw page
text and are opaque to the tiering logic). -/
structure Page where
  selectorElems : List (List (Option RawItem))
  priceItems : List RawItem
  textItems : List RawItem

/-- The result of the generic extraction tiering, with instrumentation
flags recording which fallback strategies executed. -/
structure ExtractionRun where
  items : List RawItem
  priceFallbackRan : Bool
  textFallbackRan : Bool
deriving DecidableEq

/-- The generic-platform tiering of scrape_restaurant_menu
(main_api.py:213-230): structured extraction always runs; the price-based
fallback runs only when fewer than 5 items have been collected; the
text-based fallback runs only when fewer than 3 items have been collected.
The platform-specific branches (toast/clover/grubhub, main_api.py:203-211)
bypass this tiering and call only the structured extractor. -/
def scrapeGenericMenu (p : Page) : ExtractionRun :=
  let m1 := _extract_structured_menu_items p.selectorElems
  let m2 := if m1.length < 5 then m1 ++ p.priceItems else m1
  let m3 := if m2.length < 3 then m2 ++ p.textItems else m2
  { items := m3
    priceFallbackRan := decide (m1.length < 5)
    textFallbackRan := decide (m2.length < 3) }

/-- A page for the C1 counterexample: a single structured selector matches
exactly 4 elements, each parsing to a valid item. -/
def pageC1 : Page :=
  { selectorElems :=
      [[some ⟨"Samosa", 599/100, "", "General"⟩,
        some ⟨"Pakora", 699/100, "", "General"⟩,
        some ⟨"Garlic Naan", 399/100, "", "General"⟩,
        some ⟨"Chicken Tikka Masala", 1599/100, "", "General"⟩]]
    priceItems := []
    textItems := [] }

/-- Character comparison of the default SQLite LIKE, which is
case-insensitive for ASCII letters. -/
def charEqCI (a b : Char) : Bool := a.toLower = b.toLower

/-- SQLite LIKE pattern matching: the pattern may contain the wildcards
percent (any sequence, realised by matching the rest of the pattern against
every suffix of the string) and underscore (any single character); other
characters match case-insensitively. -/
def likeMatch : List Char → List Char → Bool
  | [], s => s.isEmpty
  | c :: p, s =>
    if c = '%' then s.tails.any (fun t => likeMatch p t)
    else if c = '_' then
      match s with
      | [] => false
      | _ :: s' => likeMatch p s'
    else
      match s with
      | [] => false
      | x :: s' => charEqCI c x && likeMatch p s'

/-- SQLite BINARY collation on TEXT values: strict lexicographic order on
code points (bytewise order coincides with it on ASCII). -/
def textLt : List Char → List Char → Bool
  | [], [] => false
  | [], _ :: _ => true
  | _ :: _, [] => false
  | a :: as, b :: bs => if a < b then true else if b < a then false else textLt as bs

/-- The TEXT comparison a > b used by the WHERE clauses of
database_manager.py on the stored timestamp strings. -/
def textGtStr (a b : String) : Bool := textLt b.data a.data

/-- A row of the analytics_cache table (database_manager.py:73-80):
cache_key is the PRIMARY KEY, data the JSON payload, expires_at the TEXT
timestamp written by _cache_data. -/
structure CacheRow where
  cache_key : String
  data : String
  expires_at : String
deriving DecidableEq

/-- DatabaseManager._invalidate_cache_pattern (database_manager.py:582-589):
DELETE FROM analytics_cache WHERE cache_key LIKE pattern. -/
def _invalidate_cache_pattern (cache : List CacheRow) (pat : String) : List CacheRow :=
  cache.filter (fun r => !(likeMatch pat.data r.cache_key.data))

/-- The cache effect of DatabaseManager.save_menu_data
(database_manager.py:111-140) after a successful insert: invalidate the
restaurant_<name> namespace and the analytics namespace.  The relational
insert into menu_data does not touch the cache and is not needed by the
cache-consistency claims. -/
def save_menu_data_cacheEffect (cache : List CacheRow) (restaurant_name : String) :
    List CacheRow :=
  _invalidate_cache_pattern
    (_invalidate_cache_pattern cache ("restaurant_" ++ restaurant_name ++ "%"))
    "analytics%"

/-- The cache effect of DatabaseManager.save_reviews_data
(database_manager.py:142-181): invalidate the reviews_<name> namespace and
the analytics namespace (and only those). -/
def save_reviews_data_cacheEffect (cache : List CacheRow) (restaurant_name : String) :
    List CacheRow :=
  _invalidate_cache_pattern
    (_invalidate_cache_pattern cache ("reviews_" ++ restaurant_name ++ "%"))
    "analytics%"

/-- A Python datetime value (naive, as produced by datetime.now()). -/
structure PyDateTime where
  year : ℕ
  month : ℕ
  day : ℕ
  hour : ℕ
  minute : ℕ
  second : ℕ
  microsecond : ℕ
deriving DecidableEq

/-- The ASCII digit character of n mod 10. -/
def digitChar (n : ℕ) : Char := Char.ofNat (48 + n % 10)

/-- Zero-padded two-digit decimal rendering. -/
def pad2 (n : ℕ) : List Char := [digitChar (n / 10), digitChar n]

/-- Zero-padded four-digit decimal rendering. -/
def pad4 (n : ℕ) : List Char :=
  [digitChar (n / 1000), digitChar (n / 100), digitChar (n / 10), digitChar n]

/-- Zero-padded six-digit decimal rendering. -/
def pad6 (n : ℕ) : List Char :=
  [digitChar (n / 100000), digitChar (n / 10000), digitChar (n / 1000),
   digitChar (n / 100), digitChar (n / 10), digitChar n]

/-- Python datetime.isoformat(): YYYY-MM-DDTHH:MM:SS with a capital T
separator, followed by .ffffff exactly when the microsecond field is
nonzero.  This is the string _cache_data stores in expires_at. -/
def isoformat (t : PyDateTime) : String :=
  ⟨pad4 t.year ++ ['-'] ++ pad2 t.month ++ ['-'] ++ pad2 t.day ++ ['T'] ++
   pad2 t.hour ++ [':'] ++ pad2 t.minute ++ [':'] ++ pad2 t.second ++
   (if t.microsecond = 0 then [] else ['.'] ++ pad6 t.microsecond)⟩

/-- The TEXT produced by SQLite CURRENT_TIMESTAMP: YYYY-MM-DD HH:MM:SS with
a space separator. -/
def sqlCurrentTimestamp (t : PyDateTime) : String :=
  ⟨pad4 t.year ++ ['-'] ++ pad2 t.month ++ ['-'] ++ pad2 t.day ++ [' '] ++
   pad2 t.hour ++ [':'] ++ pad2 t.minute ++ [':'] ++ pad2 t.second⟩

/-- Chronological order on datetimes (a is not later than b). -/
def chronLe (a b : PyDateTime) : Bool :=
  if a.year ≠ b.year then a.year ≤ b.year
  else if a.month ≠ b.month then a.month ≤ b.month
  else if a.day ≠ b.day then a.day ≤ b.day
  else if a.hour ≠ b.hour then a.hour ≤ b.hour
  else if a.minute ≠ b.minute then a.minute ≤ b.minute
  else if a.second ≠ b.second then a.second ≤ b.second
  else a.microsecond ≤ b.microsecond

/-- DatabaseManager._cache_data (database_manager.py:556-565): INSERT OR
REPLACE of (key, data, expires_at.isoformat()); expires is the datetime
now + timedelta(minutes=expires_minutes) already evaluated. -/
def _cache_data (cache : List CacheRow) (key dataStr : String) (expires : PyDateTime) :
    List CacheRow :=
  ⟨key, dataStr, isoformat expires⟩ :: cache.filter (fun r => !(r.cache_key == key))

/-- DatabaseManager._get_cached_data (database_manager.py:567-580):
SELECT data WHERE cache_key = key AND expires_at > CURRENT_TIMESTAMP, the
comparison being the TEXT comparison of the stored strings. -/
def _get_cached_data (cache : List CacheRow) (key : String) (nowSql : String) :
    Option String :=
  match cache.find? (fun r => r.cache_key == key) with
  | some r => if textGtStr r.expires_at nowSql then some r.data else none
  | none => none

/-- Which branch DatabaseManager.get_restaurant (database_manager.py:183-269)
takes: cached v when the cache lookup on restaurant_<name> hits, fresh when
it misses and the function recomputes from the tables and repopulates the
cache. -/
inductive ReadResult
  | cached (v : String)
  | fresh
deriving DecidableEq

/-- The read path of DatabaseManager.get_restaurant: its first action is the
cache probe of key restaurant_<name>. -/
def get_restaurant_readPath (cache : List CacheRow) (restaurant_name : String)
    (nowSql : String) : ReadResult :=
  match _get_cached_data cache ("restaurant_" ++ restaurant_name) nowSql with
  | some v => .cached v
  | none => .fresh

/-- The pre-save cache state of the C2 counterexample: one unexpired entry
for the restaurant detail key of India Quality. -/
def cacheC2 : List CacheRow :=
  [⟨"restaurant_India Quality", "stale-presave-value", "2099-01-01T00:00:00"⟩]

/-- A scrape kind. -/
inductive Kind
  | menu
  | reviews
deriving DecidableEq

/-- A scrape job identity: target restaurant and kind. -/
structure Job where
  target : String
  kind : Kind
deriving DecidableEq

/-- Scheduler-visible events: a job is dispatched, or its outcome is
recorded. -/
inductive Act
  | dispatch (j : Job)
  | record (j : Job)
deriving DecidableEq

/-- Occurrences of an action in a trace. -/
def countAct (a : Act) : List Act → ℕ
  | [] => 0
  | b :: tr => (if b = a then 1 else 0) + countAct a tr

/-- Dispatches minus recorded outcomes for a job in a trace. -/
def pendingZ (tr : List Act) (j : Job) : ℤ :=
  (countAct (.dispatch j) tr : ℤ) - (countAct (.record j) tr : ℤ)

/-- The no-overlap condition on a trace (newest event first): whenever a
job is dispatched, no earlier dispatch of the same job is still without a
recorded outcome. -/
def noOverlapB : List Act → Bool
  | [] => true
  | .record _ :: tr => noOverlapB tr
  | .dispatch j :: tr => (if pendingZ tr j = 0 then true else false) && noOverlapB tr

/-- The scheduler-visible event sequence (oldest first) of one
_scrape_single_restaurant_complete execution (scrapper_service.py:103-179):
the menu scrape runs and its outcome is logged, then for each source in
the review_sources list (google, then yelp) a review scrape runs and its
outcome is logged, strictly sequentially. -/
def completeScrapeTrace (t : String) : List Act :=
  [.dispatch ⟨t, .menu⟩, .record ⟨t, .menu⟩,
   .dispatch ⟨t, .reviews⟩, .record ⟨t, .reviews⟩,
   .dispatch ⟨t, .reviews⟩, .record ⟨t, .reviews⟩]

/-- Reachability of service states.  A state is the list of pending event
sequences of in-flight executions together with the emitted trace (newest
first).  startOnDemand mirrors scrape_single_restaurant
(scrapper_service.py:456-474): it has no side condition because the method
dispatches unconditionally — scraping_tasks is assigned but never consulted
before create_task, and no in-flight (target, kind) record exists anywhere
in the service.  step lets any in-flight execution emit its next event,
which is how asyncio interleaves the corresponding coroutines at their
await points. -/
inductive Reach : List (List Act) → List Act → Prop
  | init : Reach [] []
  | startOnDemand (t : String) (run : List (List Act)) (tr : List Act) :
      Reach run tr → Reach (completeScrapeTrace t :: run) tr
  | step (run₁ : List (List Act)) (a : Act) (acts : List Act) (run₂ : List (List Act))
      (tr : List Act) :
      Reach (run₁ ++ (a :: acts) :: run₂) tr → Reach (run₁ ++ acts :: run₂) (a :: tr)

/-- The fixed inter-cycle sleep of _continuous_scraping_loop
(scrapper_service.py:58): 30 minutes. -/
def cycle_sleep : ℕ := 1800

/-- The 5-minute sleep taken when a cycle raises
(scrapper_service.py:66). -/
def error_sleep : ℕ := 300

/-- Time from one cycle start to the next (scrapper_service.py:41-66):
the cycle body takes d k seconds; afterwards the loop sleeps 1800 seconds,
or 300 seconds when the cycle body raised (crash k).  No other quantity —
in particular no error count — enters the computation: error_counts is
written by _scrape_single_restaurant_complete but never read by the
loop. -/
def cycleGap (crash : ℕ → Bool) (d : ℕ → ℕ) (k : ℕ) : ℕ :=
  if crash k then d k + error_sleep else d k + cycle_sleep

/-- Start time of the k-th scraping cycle, which is also the k-th
scheduling check for every restaurant: every cycle scrapes every
restaurant, with no due-time computation. -/
def cycleStart (crash : ℕ → Bool) (d : ℕ → ℕ) : ℕ → ℕ
  | 0 => 0
  | k + 1 => cycleStart crash d k + cycleGap crash d k

/-- Consecutive failures for a target before cycle k, given which cycles
succeeded for it.  This is the quantity N of the backoff claim; the code
itself only accumulates a never-reset error_counts dictionary
(scrapper_service.py:171,176) and never uses it for scheduling. -/
def consecutiveFailures (success : ℕ → Bool) : ℕ → ℕ
  | 0 => 0
  | k + 1 => if success k then 0 else consecutiveFailures success k + 1

/-- A review as consumed by _enhance_reviews_data: only its text matters to
the sentiment summary. -/
structure Review where
  text : String
deriving DecidableEq

/-- The sentiment_analysis dictionary built by
RestaurantScraperService._enhance_reviews_data (scrapper_service.py:358-371). -/
structure SentimentAnalysis where
  avg_sentiment : ℚ
  positive_reviews : ℕ
  negative_reviews : ℕ
  neutral_reviews : ℕ
  total_analyzed : ℕ
  dist_positive : ℚ
  dist_negative : ℚ
  dist_neutral : ℚ
deriving DecidableEq

/-- The elif classification chain of scrapper_service.py:342-350 mapped to
filters: positive iff score > 0.1, negative iff score < -0.1, neutral
otherwise. -/
def isPositiveScore (s : ℚ) : Bool := if 1/10 < s then true else false

def isNegativeScore (s : ℚ) : Bool :=
  if 1/10 < s then false else if s < -(1/10) then true else false

def isNeutralScore (s : ℚ) : Bool :=
  if 1/10 < s then false else if s < -(1/10) then false else true

/-- The sentiment part of RestaurantScraperService._enhance_reviews_data
(scrapper_service.py:319-379).  The TextBlob polarity call is the pluggable
scorer: scorer t = none models the call raising (that review is tagged
unknown and not counted).  Only reviews with text longer than 10
characters are analysed.  The sentiment_analysis key is set only when at
least one score was collected; otherwise the function returns none,
meaning the key is absent from the enhanced data. -/
def _enhance_reviews_sentiment (scorer : String → Option ℚ) (reviews : List Review) :
    Option SentimentAnalysis :=
  if reviews.isEmpty then none
  else
    let scores := reviews.filterMap
      (fun r => if r.text.data.length > 10 then scorer r.text else none)
    if scores.isEmpty then none
    else
      let pos := (scores.filter isPositiveScore).length
      let neg := (scores.filter isNegativeScore).length
      let neu := (scores.filter isNeutralScore).length
      some
        { avg_sentiment := pyRound 3 (sumQ scores / (scores.length : ℚ))
          positive_reviews := pos
          negative_reviews := neg
          neutral_reviews := neu
          total_analyzed := scores.length
          dist_positive := pyRound 3 ((pos : ℚ) / (scores.length : ℚ))
          dist_negative := pyRound 3 ((neg : ℚ) / (scores.length : ℚ))
          dist_neutral := pyRound 3 ((neu : ℚ) / (scores.length : ℚ)) }

instance {ε α : Type} [DecidableEq ε] [DecidableEq α] : DecidableEq (Except ε α) := fun x y =>
  match x, y with
  | .ok a, .ok b =>
      if h : a = b then .isTrue (h ▸ rfl) else .isFalse (fun hc => h (Except.ok.inj hc))
  | .error a, .error b =>
      if h : a = b then .isTrue (h ▸ rfl) else .isFalse (fun hc => h (Except.error.inj hc))
  | .ok _, .error _ => .isFalse (fun hc => Except.noConfusion hc)
  | .error _, .ok _ => .isFalse (fun hc => Except.noConfusion hc)

/-- Python exceptions relevant to the embedded service paths. -/
inductive PyErr
  | attributeError (method : String)
  | typeError (method : String)
deriving DecidableEq

/-- The methods the DatabaseManager class defines (database_manager.py,
class body lines 11-595), with the least and greatest number of positional
arguments each accepts after self (accounting for defaulted parameters). -/
def databaseManagerMethods : List (String × ℕ × ℕ) :=
  [("initialize", 0, 0),
   ("add_restaurant", 1, 2),
   ("save_menu_data", 2, 2),
   ("save_reviews_data", 2, 2),
   ("get_restaurant", 1, 1),
   ("get_all_restaurants", 0, 0),
   ("get_restaurant_reviews", 1, 2),
   ("get_analytics_summary", 0, 0),
   ("get_trends_data", 0, 0),
   ("update_last_menu_scrape_time", 1, 1),
   ("get_last_menu_scrape_time", 1, 1),
   ("_cache_data", 2, 3),
   ("_get_cached_data", 1, 1),
   ("_invalidate_cache_pattern", 1, 1),
   ("cleanup_expired_cache", 0, 0)]

/-- Arity bounds of a DatabaseManager method, none when the attribute does
not exist. -/
def lookupDbMethod (nm : String) : Option (ℕ × ℕ) :=
  (databaseManagerMethods.find? (fun m => m.1 == nm)).map (fun m => m.2)

/-- Calling self.db_manager.<nm> with args positional arguments: attribute
access raises AttributeError when the method does not exist, the call
raises TypeError when the argument count is outside the accepted range. -/
def callDbMethod (nm : String) (args : ℕ) : Except PyErr Unit :=
  match lookupDbMethod nm with
  | none => .error (.attributeError nm)
  | some b => if b.1 ≤ args && args ≤ b.2 then .ok () else .error (.typeError nm)

/-- The result dict of _scrape_single_restaurant_complete, restricted to
the fields the claims mention. -/
structure ScrapeResult where
  success : Bool
  menu_success : Bool
  reviews_success : Bool
  error : Option String
deriving DecidableEq

/-- Rendering of str(e) for the embedded exceptions. -/
def pyErrStr : PyErr → String
  | .attributeError m => "AttributeError: " ++ m
  | .typeError m => "TypeError: " ++ m

/-- One iteration of the review-source loop of
_scrape_single_restaurant_complete (scrapper_service.py:140-160), the
fetch outcome abstracted as hasReviews.  The body saves and logs on
success (save_reviews_data is called with three arguments, line 150) or
logs a failure; the inner except handler itself calls
log_scraping_activity, whose own error propagates. -/
def reviewSourceStep (hasReviews : Bool) : Except PyErr Unit :=
  let body : Except PyErr Unit :=
    if hasReviews then do
      callDbMethod "save_reviews_data" 3
      callDbMethod "log_scraping_activity" 3
    else
      callDbMethod "log_scraping_activity" 4
  match body with
  | .ok _ => .ok ()
  | .error _ => callDbMethod "log_scraping_activity" 4

/-- RestaurantScraperService._scrape_single_restaurant_complete
(scrapper_service.py:103-179) with fetch/extraction outcomes abstracted:
menuHasItems says whether menu_scraper returned items, googleHasReviews and
yelpHasReviews whether review_scraper returned reviews per source.  The
outer except handler (line 173-177) calls log_scraping_activity before
returning the failure dict; if that call itself raises, the exception
escapes the method. -/
def _scrape_single_restaurant_complete
    (menuHasItems googleHasReviews yelpHasReviews : Bool) :
    Except PyErr ScrapeResult :=
  let inner : Except PyErr ScrapeResult := do
    if menuHasItems then do
      callDbMethod "save_menu_data" 2
      callDbMethod "log_scraping_activity" 3
    else
      callDbMethod "log_scraping_activity" 4
    reviewSourceStep googleHasReviews
    reviewSourceStep yelpHasReviews
    pure
      { success := menuHasItems || googleHasReviews || yelpHasReviews
        menu_success := menuHasItems
        reviews_success := googleHasReviews || yelpHasReviews
        error := none }
  match inner with
  | .ok r => .ok r
  | .error e =>
    match callDbMethod "log_scraping_activity" 4 with
    | .ok _ =>
        .ok { success := false, menu_success := false, reviews_success := false
              error := some (pyErrStr e) }
    | .error e2 => .error e2

/-- RestaurantScraperService.scrape_single_restaurant
(scrapper_service.py:456-474): awaits the complete-scrape task and turns
any raised exception into a success-False dict. -/
def scrape_single_restaurant (menuHasItems googleHasReviews yelpHasReviews : Bool) :
    ScrapeResult :=
  match _scrape_single_restaurant_complete menuHasItems googleHasReviews yelpHasReviews with
  | .ok r => r
  | .error e =>
      { success := false, menu_success := false, reviews_success := false
        error := some (pyErrStr e) }

/-- One entry of RestaurantScraperService._scrape_batch
(scrapper_service.py:84-101): the per-task await is wrapped in try/except,
so a raised exception becomes a success-False entry and never escapes the
batch (and hence never escapes _scrape_all_restaurants or the driving
loop, which only consume batch results). -/
def scrape_batch_entry (menuHasItems googleHasReviews yelpHasReviews : Bool) :
    ScrapeResult :=
  match _scrape_single_restaurant_complete menuHasItems googleHasReviews yelpHasReviews with
  | .ok r => r
  | .error e =>
      { success := false, menu_success := false, reviews_success := false
        error := some (pyErrStr e) }

/-- The input of the C3 price-statistics scenario for main_api.py. -/
def itemsC3 : List RawItem :=
  [⟨"A", 10, "", "General"⟩, ⟨"B", 20, "", "General"⟩, ⟨"C", 0, "", "General"⟩]

/-- The input of the C3 price-statistics scenario for scrapper_service.py. -/
def itemsC3s : List SItem := [⟨some 10⟩, ⟨some 20⟩, ⟨some 0⟩]

/-- A page on which the structured tier alone clears every floor: one
selector matches 6 elements, all parsing to valid items. -/
def pageC1w : Page :=
  { selectorElems :=
      [[some ⟨"Samosa", 599/100, "", "General"⟩,
        some ⟨"Pakora", 699/100, "", "General"⟩,
        some ⟨"Garlic Naan", 399/100, "", "General"⟩,
        some ⟨"Chicken Tikka Masala", 1599/100, "", "General"⟩,
        some ⟨"Lamb Biryani", 1799/100, "", "General"⟩,
        some ⟨"Mango Lassi", 499/100, "", "General"⟩]]
    priceItems := [⟨"Phantom", 1, "", "General"⟩]
    textItems := [⟨"Phantom2", 1, "", "General"⟩] }

/-- The menu job of the C4 overlap counterexample. -/
def jobC4 : Job := ⟨"India Quality", Kind.menu⟩

/-- What remains of a complete-scrape execution for India Quality after its
first event (the menu dispatch) has been emitted. -/
def restC4 : List Act :=
  [.record jobC4,
   .dispatch ⟨"India Quality", .reviews⟩, .record ⟨"India Quality", .reviews⟩,
   .dispatch ⟨"India Quality", .reviews⟩, .record ⟨"India Quality", .reviews⟩]

/-- The overlapping trace of the C4 counterexample (newest first): two
dispatches of the same menu job with no outcome recorded between them. -/
def twoDispatchC4 : List Act := [.dispatch jobC4, .dispatch jobC4]

/-- The expiry instant stored by _cache_data in the C9 scenario. -/
def expiresC9 : PyDateTime := ⟨2024, 6, 1, 12, 0, 0, 0⟩

/-- The read instant of the C9 scenario, six hours after the expiry. -/
def nowC9 : PyDateTime := ⟨2024, 6, 1, 18, 0, 0, 0⟩

/-- The C7 idempotence counterexample input: the stripped raw name has
length 3, so the item passes the length check, but the punctuation-stripping
re.sub then shortens the name to a single character. -/
def itemsC7 : List RawItem := [⟨"a,,", 1, "", "General"⟩]

/-- The C8 counterexample input: a name of three commas passes the length
check and is then sanitised to the empty string. -/
def itemsC8 : List RawItem := [⟨",,,", 2, "", "General"⟩]

/-- A well-behaved cleaning input used by the C7 witness: a duplicate that
differs only in case, plus descriptions already stripped. -/
def itemsC7w : List RawItem :=
  [⟨"Samosa", 5, "crisp and hot", "Appetizers"⟩,
   ⟨"SAMOSA", 6, "", "General"⟩,
   ⟨"Garlic Naan", 4, "", "Breads"⟩]

/-- The C8 witness input: a valid name with a negative price. -/
def itemsC8w : List RawItem := [⟨"Samosa", -5, " tasty ", "General"⟩]

/-! ### Helper lemmas -/

theorem likeMatch_append_percent (s : List Char) : likeMatch (s ++ ['%']) s = true := by
  induction s with
  | nil => rfl
  | cons c s ih =>
    show likeMatch (c :: (s ++ ['%'])) (c :: s) = true
    by_cases hc : c = '%'
    · subst hc
      have hmem : s ∈ (('%' : Char) :: s).tails := (List.mem_tails s _).2 (List.suffix_cons _ s)
      simp only [likeMatch, if_pos rfl]
      exact List.any_eq_true.2 ⟨s, hmem, ih⟩
    · by_cases hu : c = '_'
      · subst hu
        simp only [likeMatch, if_neg (by decide : ¬('_' : Char) = '%'), if_pos rfl]
        exact ih
      · simp [likeMatch, if_neg hc, if_neg hu, charEqCI, ih]

theorem sentiment_filter_partition (l : List ℚ) :
    (l.filter isPositiveScore).length + (l.filter isNegativeScore).length
      + (l.filter isNeutralScore).length = l.length := by
  induction l with
  | nil => rfl
  | cons x xs ih =>
    by_cases h1 : (1 : ℚ)/10 < x
    · have hp : isPositiveScore x = true := by unfold isPositiveScore; rw [if_pos h1]
      have hn : isNegativeScore x = false := by unfold isNegativeScore; rw [if_pos h1]
      have hu : isNeutralScore x = false := by unfold isNeutralScore; rw [if_pos h1]
      simp [List.filter_cons, hp, hn, hu]
      omega
    · by_cases h2 : x < -((1 : ℚ)/10)
      · have hp : isPositiveScore x = false := by unfold isPositiveScore; rw [if_neg h1]
        have hn : isNegativeScore x = true := by
          unfold isNegativeScore; rw [if_neg h1, if_pos h2]
        have hu : isNeutralScore x = false := by
          unfold isNeutralScore; rw [if_neg h1, if_pos h2]
        simp [List.filter_cons, hp, hn, hu]
        omega
      · have hp : isPositiveScore x = false := by unfold isPositiveScore; rw [if_neg h1]
        have hn : isNegativeScore x = false := by
          unfold isNegativeScore; rw [if_neg h1, if_neg h2]
        have hu : isNeutralScore x = true := by
          unfold isNeutralScore; rw [if_neg h1, if_neg h2]
        simp [List.filter_cons, hp, hn, hu]
        omega

/-! ### String-processing and cleaning lemmas -/

theorem splitWsAux_words_good (l : List Char) :
    ∀ acc, (∀ c ∈ acc, isPyWhitespace c = false) →
      ∀ w ∈ splitWsAux l acc, w ≠ [] ∧ ∀ c ∈ w, isPyWhitespace c = false := by
  induction l with
  | nil =>
    intro acc hacc w hw
    unfold splitWsAux at hw
    by_cases he : acc.isEmpty = true
    · rw [if_pos he] at hw
      exact absurd hw (List.not_mem_nil w)
    · rw [if_neg he] at hw
      rcases List.mem_singleton.1 hw with rfl
      constructor
      · intro hnil
        rw [List.reverse_eq_nil_iff] at hnil
        rw [hnil] at he
        exact he rfl
      · intro c hc
        exact hacc c (List.mem_reverse.1 hc)
  | cons a l ih =>
    intro acc hacc w hw
    unfold splitWsAux at hw
    by_cases hws : isPyWhitespace a = true
    · rw [if_pos hws] at hw
      by_cases he : acc.isEmpty = true
      · rw [if_pos he] at hw
        exact ih [] (fun c hc => absurd hc (List.not_mem_nil c)) w hw
      · rw [if_neg he] at hw
        rcases List.mem_cons.1 hw with rfl | hw'
        · constructor
          · intro hnil
            rw [List.reverse_eq_nil_iff] at hnil
            rw [hnil] at he
            exact he rfl
          · intro c hc
            exact hacc c (List.mem_reverse.1 hc)
        · exact ih [] (fun c hc => absurd hc (List.not_mem_nil c)) w hw'
    · rw [if_neg hws] at hw
      refine ih (a :: acc) ?_ w hw
      intro c hc
      rcases List.mem_cons.1 hc with rfl | hc'
      · exact Bool.not_eq_true _ ▸ hws
      · exact hacc c hc'

theorem splitWsAux_append (w : List Char) :
    ∀ (l acc : List Char), (∀ c ∈ w, isPyWhitespace c = false) →
      splitWsAux (w ++ l) acc = splitWsAux l (w.reverse ++ acc) := by
  induction w with
  | nil => intro l acc _; rfl
  | cons c w ih =>
    intro l acc hw
    have hc : isPyWhitespace c = false := hw c (List.mem_cons_self c w)
    have hw' : ∀ x ∈ w, isPyWhitespace x = false := fun x hx => hw x (List.mem_cons_of_mem c hx)
    calc splitWsAux ((c :: w) ++ l) acc
        = splitWsAux (w ++ l) (c :: acc) := by
          show splitWsAux (c :: (w ++ l)) acc = _
          conv_lhs => unfold splitWsAux
          rw [if_neg (by simp [hc])]
      _ = splitWsAux l (w.reverse ++ (c :: acc)) := ih l (c :: acc) hw'
      _ = splitWsAux l ((c :: w).reverse ++ acc) := by
          simp [List.reverse_cons, List.append_assoc]

theorem joinSpace_cons₂ (w v : List Char) (vs : List (List Char)) :
    joinSpace (w :: v :: vs) = w ++ ' ' :: joinSpace (v :: vs) := by
  simp [joinSpace, List.intersperse]

theorem joinSpace_cons (w : List Char) (ws : List (List Char)) :
    ∃ rest, joinSpace (w :: ws) = w ++ rest := by
  cases ws with
  | nil => exact ⟨[], by simp [joinSpace]⟩
  | cons v vs => exact ⟨' ' :: joinSpace (v :: vs), joinSpace_cons₂ w v vs⟩

theorem splitWs_joinSpace (ws : List (List Char))
    (h : ∀ w ∈ ws, w ≠ [] ∧ ∀ c ∈ w, isPyWhitespace c = false) :
    splitWs (joinSpace ws) = ws := by
  induction ws with
  | nil => rfl
  | cons w ws ih =>
    obtain ⟨hne, hgood⟩ := h w (List.mem_cons_self w ws)
    have hrevne : w.reverse.isEmpty ≠ true := by
      intro hempty
      rw [List.isEmpty_iff, List.reverse_eq_nil_iff] at hempty
      exact hne hempty
    cases ws with
    | nil =>
      have hj : joinSpace [w] = w := by simp [joinSpace]
      rw [hj]
      unfold splitWs
      have ha := splitWsAux_append w [] [] hgood
      rw [List.append_nil, List.append_nil] at ha
      rw [ha]
      unfold splitWsAux
      rw [if_neg hrevne]
      rw [List.reverse_reverse]
    | cons v vs =>
      have hws' : ∀ u ∈ v :: vs, u ≠ [] ∧ ∀ c ∈ u, isPyWhitespace c = false :=
        fun u hu => h u (List.mem_cons_of_mem w hu)
      rw [joinSpace_cons₂ w v vs]
      unfold splitWs
      have ha := splitWsAux_append w (' ' :: joinSpace (v :: vs)) [] hgood
      rw [List.append_nil] at ha
      rw [ha]
      unfold splitWsAux
      rw [if_pos (by decide : isPyWhitespace ' ' = true)]
      rw [if_neg hrevne]
      rw [List.reverse_reverse]
      have := ih hws'
      unfold splitWs at this
      rw [this]

theorem normSpaces_idem (l : List Char) : normSpaces (normSpaces l) = normSpaces l := by
  unfold normSpaces
  congr 1
  exact splitWs_joinSpace (splitWs l)
    (fun w hw => splitWsAux_words_good l [] (fun c hc => absurd hc (List.not_mem_nil c)) w hw)

theorem splitWsAux_chars (l : List Char) :
    ∀ acc w c, w ∈ splitWsAux l acc → c ∈ w → c ∈ l ∨ c ∈ acc := by
  induction l with
  | nil =>
    intro acc w c hw hc
    unfold splitWsAux at hw
    by_cases he : acc.isEmpty = true
    · rw [if_pos he] at hw
      exact absurd hw (List.not_mem_nil w)
    · rw [if_neg he] at hw
      rcases List.mem_singleton.1 hw with rfl
      exact Or.inr (List.mem_reverse.1 hc)
  | cons a l ih =>
    intro acc w c hw hc
    unfold splitWsAux at hw
    by_cases hws : isPyWhitespace a = true
    · rw [if_pos hws] at hw
      by_cases he : acc.isEmpty = true
      · rw [if_pos he] at hw
        rcases ih [] w c hw hc with h | h
        · exact Or.inl (List.mem_cons_of_mem a h)
        · exact absurd h (List.not_mem_nil c)
      · rw [if_neg he] at hw
        rcases List.mem_cons.1 hw with rfl | hw'
        · exact Or.inr (List.mem_reverse.1 hc)
        · rcases ih [] w c hw' hc with h | h
          · exact Or.inl (List.mem_cons_of_mem a h)
          · exact absurd h (List.not_mem_nil c)
    · rw [if_neg hws] at hw
      rcases ih (a :: acc) w c hw hc with h | h
      · exact Or.inl (List.mem_cons_of_mem a h)
      · rcases List.mem_cons.1 h with rfl | h'
        · exact Or.inl (List.mem_cons_self c l)
        · exact Or.inr h'

theorem joinSpace_chars (ws : List (List Char)) :
    ∀ c, c ∈ joinSpace ws → (∃ w ∈ ws, c ∈ w) ∨ c = ' ' := by
  induction ws with
  | nil => intro c hc; exact absurd hc (List.not_mem_nil c)
  | cons w ws ih =>
    intro c hc
    cases ws with
    | nil =>
      have hj : joinSpace [w] = w := by simp [joinSpace]
      rw [hj] at hc
      exact Or.inl ⟨w, List.mem_cons_self w [], hc⟩
    | cons v vs =>
      rw [joinSpace_cons₂ w v vs] at hc
      rcases List.mem_append.1 hc with h | h
      · exact Or.inl ⟨w, List.mem_cons_self w _, h⟩
      · rcases List.mem_cons.1 h with rfl | h'
        · exact Or.inr rfl
        · rcases ih c h' with ⟨u, hu, hcu⟩ | h''
          · exact Or.inl ⟨u, List.mem_cons_of_mem w hu, hcu⟩
          · exact Or.inr h''

theorem removeBad_fix (l : List Char) :
    removeBadChars (normSpaces (removeBadChars l)) = normSpaces (removeBadChars l) := by
  unfold removeBadChars
  apply List.filter_eq_self.2
  intro c hc
  unfold normSpaces at hc
  rcases joinSpace_chars _ c hc with ⟨w, hw, hcw⟩ | rfl
  · rcases splitWsAux_chars _ [] w c hw hcw with h | h
    · exact (List.mem_filter.1 h).2
    · exact absurd h (List.not_mem_nil c)
  · decide

theorem dropWhile_eq_self_head (p : Char → Bool) (l : List Char)
    (h : ∀ c t, l = c :: t → p c = false) : l.dropWhile p = l := by
  cases l with
  | nil => rfl
  | cons a t => simp [List.dropWhile_cons, h a t rfl]

theorem joinSpace_reverse_head (ws : List (List Char))
    (h : ∀ w ∈ ws, w ≠ [] ∧ ∀ c ∈ w, isPyWhitespace c = false) :
    joinSpace ws = [] ∨
      ∃ c t, (joinSpace ws).reverse = c :: t ∧ isPyWhitespace c = false := by
  induction ws with
  | nil => exact Or.inl rfl
  | cons w ws ih =>
    obtain ⟨hne, hgood⟩ := h w (List.mem_cons_self w ws)
    cases ws with
    | nil =>
      have hj : joinSpace [w] = w := by simp [joinSpace]
      obtain ⟨c, t, hct⟩ : ∃ c t, w.reverse = c :: t := by
        cases hrev : w.reverse with
        | nil =>
          rw [List.reverse_eq_nil_iff] at hrev
          exact absurd hrev hne
        | cons c t => exact ⟨c, t, rfl⟩
      refine Or.inr ⟨c, t, by rw [hj, hct], ?_⟩
      have hcw : c ∈ w := by
        have : c ∈ w.reverse := by rw [hct]; exact List.mem_cons_self c t
        exact List.mem_reverse.1 this
      exact hgood c hcw
    | cons v vs =>
      rcases ih (fun u hu => h u (List.mem_cons_of_mem w hu)) with hnil | ⟨c, t, hct, hcws⟩
      · obtain ⟨hvne, _⟩ := h v (List.mem_cons_of_mem w (List.mem_cons_self v vs))
        obtain ⟨rest, hrest⟩ := joinSpace_cons v vs
        rw [hrest] at hnil
        exact absurd (List.append_eq_nil.1 hnil).1 hvne
      · refine Or.inr ⟨c, t ++ [' '] ++ w.reverse, ?_, hcws⟩
        rw [joinSpace_cons₂ w v vs, List.reverse_append, List.reverse_cons, hct]
        simp [List.append_assoc]

theorem strip_normSpaces (l : List Char) : stripChars (normSpaces l) = normSpaces l := by
  have hgood : ∀ w ∈ splitWs l, w ≠ [] ∧ ∀ c ∈ w, isPyWhitespace c = false :=
    fun w hw => splitWsAux_words_good l [] (fun c hc => absurd hc (List.not_mem_nil c)) w hw
  have h1 : (normSpaces l).dropWhile isPyWhitespace = normSpaces l := by
    apply dropWhile_eq_self_head
    intro c t hct
    unfold normSpaces at hct
    cases hws : splitWs l with
    | nil =>
      rw [hws] at hct
      exact absurd hct.symm (by simp [joinSpace])
    | cons w ws =>
      obtain ⟨rest, hrest⟩ := joinSpace_cons w ws
      obtain ⟨hne, hwgood⟩ := hgood w (by rw [hws]; exact List.mem_cons_self w ws)
      cases w with
      | nil => exact absurd rfl hne
      | cons d w' =>
        rw [hws, hrest] at hct
        have hcd : c = d := (List.cons.injEq .. ▸ hct.symm).1
        rw [hcd]
        exact hwgood d (List.mem_cons_self d w')
  have h2 : (normSpaces l).reverse.dropWhile isPyWhitespace = (normSpaces l).reverse := by
    apply dropWhile_eq_self_head
    intro c t hct
    rcases joinSpace_reverse_head (splitWs l) hgood with hnil | ⟨c', t', hct', hc'⟩
    · unfold normSpaces at hct
      rw [hnil] at hct
      exact absurd hct (by simp)
    · unfold normSpaces at hct
      rw [hct'] at hct
      have : c = c' := (List.cons.injEq .. ▸ hct.symm).1
      rw [this]
      exact hc'
  unfold stripChars
  rw [h1, h2, List.reverse_reverse]

theorem sanitize_fix (s : String) : sanitizeName (sanitizeName s) = sanitizeName s := by
  unfold sanitizeName
  congr 1
  show normSpaces (removeBadChars (stripChars
      (normSpaces (removeBadChars (stripChars s.data)))))
    = normSpaces (removeBadChars (stripChars s.data))
  rw [strip_normSpaces (removeBadChars (stripChars s.data))]
  rw [removeBad_fix (stripChars s.data)]
  rw [normSpaces_idem]

theorem pyStrip_sanitize (s : String) : pyStrip (sanitizeName s) = sanitizeName s := by
  unfold pyStrip sanitizeName
  congr 1
  exact strip_normSpaces _

theorem nameKey_cleanedOf (it : RawItem) : nameKey (cleanedOf it) = nameKey it := by
  unfold nameKey cleanedOf
  show lowerStr (sanitizeName (sanitizeName it.name)) = lowerStr (sanitizeName it.name)
  rw [sanitize_fix]

theorem cleanAux_mem (items : List RawItem) :
    ∀ seen it, it ∈ cleanAux seen items →
      ∃ src, src ∈ items ∧ validItem src = true ∧ it = cleanedOf src := by
  induction items with
  | nil => intro seen it h; exact absurd h (List.not_mem_nil it)
  | cons x xs ih =>
    intro seen it h
    unfold cleanAux at h
    by_cases hv : validItem x = true
    · rw [if_pos hv] at h
      by_cases hm : nameKey x ∈ seen
      · rw [if_pos hm] at h
        obtain ⟨src, h1, h2, h3⟩ := ih seen it h
        exact ⟨src, List.mem_cons_of_mem x h1, h2, h3⟩
      · rw [if_neg hm] at h
        rcases List.mem_cons.1 h with rfl | h'
        · exact ⟨x, List.mem_cons_self x xs, hv, rfl⟩
        · obtain ⟨src, h1, h2, h3⟩ := ih _ it h'
          exact ⟨src, List.mem_cons_of_mem x h1, h2, h3⟩
    · rw [if_neg hv] at h
      obtain ⟨src, h1, h2, h3⟩ := ih seen it h
      exact ⟨src, List.mem_cons_of_mem x h1, h2, h3⟩

theorem cleanAux_keys (items : List RawItem) :
    ∀ seen, ((cleanAux seen items).map nameKey).Nodup
      ∧ ∀ k ∈ (cleanAux seen items).map nameKey, k ∉ seen := by
  induction items with
  | nil =>
    intro seen
    exact ⟨List.nodup_nil, fun k hk => absurd hk (List.not_mem_nil k)⟩
  | cons x xs ih =>
    intro seen
    unfold cleanAux
    by_cases hv : validItem x = true
    · rw [if_pos hv]
      by_cases hm : nameKey x ∈ seen
      · rw [if_pos hm]
        exact ih seen
      · rw [if_neg hm]
        obtain ⟨hnodup, hfresh⟩ := ih (nameKey x :: seen)
        constructor
        · rw [List.map_cons, nameKey_cleanedOf]
          exact List.nodup_cons.2
            ⟨fun hk => (hfresh _ hk) (List.mem_cons_self _ _), hnodup⟩
        · intro k hk
          rw [List.map_cons, nameKey_cleanedOf] at hk
          rcases List.mem_cons.1 hk with rfl | hk'
          · exact hm
          · exact fun hks => (hfresh k hk') (List.mem_cons_of_mem _ hks)
    · rw [if_neg hv]
      exact ih seen

theorem cleanAux_fixed (M : List RawItem) :
    ∀ seen,
      (∀ it ∈ M, validItem it = true ∧ cleanedOf it = it) →
      (M.map nameKey).Nodup →
      (∀ it ∈ M, nameKey it ∉ seen) →
      cleanAux seen M = M := by
  induction M with
  | nil => intro seen _ _ _; rfl
  | cons x xs ih =>
    intro seen hfix hnodup hfresh
    unfold cleanAux
    obtain ⟨hvx, hcx⟩ := hfix x (List.mem_cons_self x xs)
    rw [if_pos hvx, if_neg (hfresh x (List.mem_cons_self x xs))]
    rw [hcx]
    congr 1
    have hnodup' := List.nodup_cons.1 hnodup
    apply ih (nameKey x :: seen)
    · exact fun it h => hfix it (List.mem_cons_of_mem x h)
    · exact hnodup'.2
    · intro it hit hmem
      rcases List.mem_cons.1 hmem with heq | hmem'
      · have hin : nameKey it ∈ xs.map nameKey := List.mem_map_of_mem nameKey hit
        rw [heq] at hin
        exact hnodup'.1 hin
      · exact hfresh it (List.mem_cons_of_mem x hit) hmem'

/-! ### Claim theorems -/

/-- Claim C1 (counterexample): the claim says that on any page with more
than 3 elements matching a structured selector the two fallbacks do not
execute.  On pageC1 one selector matches 4 elements, all yielding valid
items, yet the price-pattern fallback still runs, because the guard of
main_api.py:220 tests the extracted item count against 5, not the element
count. -/
theorem C1_counterexample :
    (pageC1.selectorElems.any (fun elems => elems.length > 3)) = true
    ∧ (scrapeGenericMenu pageC1).priceFallbackRan = true := by decide

/-- Claim C1 (amended): in the generic tiering of scrape_restaurant_menu,
the price-pattern fallback runs exactly when structured extraction yielded
fewer than 5 items, and the vocabulary (text-based) fallback exactly when
fewer than 3 items have been collected after the price stage; when the
structured tier yields at least 5 items neither fallback runs and its
results are used alone; the structured results are always a prefix of the
final item list.  Matching more than 3 elements does not by itself suppress
the fallbacks. -/
theorem C1_amended (p : Page) :
    ((scrapeGenericMenu p).priceFallbackRan = true ↔
      (_extract_structured_menu_items p.selectorElems).length < 5)
    ∧ ((scrapeGenericMenu p).textFallbackRan = true ↔
        (if (_extract_structured_menu_items p.selectorElems).length < 5
          then (_extract_structured_menu_items p.selectorElems).length + p.priceItems.length
          else (_extract_structured_menu_items p.selectorElems).length) < 3)
    ∧ (5 ≤ (_extract_structured_menu_items p.selectorElems).length →
        scrapeGenericMenu p = ⟨_extract_structured_menu_items p.selectorElems, false, false⟩)
    ∧ ∃ rest, (scrapeGenericMenu p).items
        = _extract_structured_menu_items p.selectorElems ++ rest := by
  refine ⟨by simp [scrapeGenericMenu], ?_, ?_, ?_⟩
  · simp only [scrapeGenericMenu]
    by_cases h5 : (_extract_structured_menu_items p.selectorElems).length < 5 <;>
      simp [h5, List.length_append]
  · intro h5
    have hn5 : ¬ (_extract_structured_menu_items p.selectorElems).length < 5 := by omega
    have hn3 : ¬ (_extract_structured_menu_items p.selectorElems).length < 3 := by omega
    simp [scrapeGenericMenu, hn5, hn3]
  · simp only [scrapeGenericMenu]
    by_cases h5 : (_extract_structured_menu_items p.selectorElems).length < 5
    · by_cases h3 : (_extract_structured_menu_items p.selectorElems).length
          + p.priceItems.length < 3
      · exact ⟨p.priceItems ++ p.textItems,
          by simp [h5, h3, List.length_append, List.append_assoc]⟩
      · exact ⟨p.priceItems, by simp [h5, h3, List.length_append]⟩
    · by_cases h3 : (_extract_structured_menu_items p.selectorElems).length < 3
      · exact ⟨p.textItems, by simp [h5, h3]⟩
      · exact ⟨[], by simp [h5, h3]⟩

/-- Witness for C1_amended at a page whose structured tier yields 6 items. -/
theorem C1_witness :
    5 ≤ (_extract_structured_menu_items pageC1w.selectorElems).length
    ∧ scrapeGenericMenu pageC1w
        = ⟨_extract_structured_menu_items pageC1w.selectorElems, false, false⟩ :=
  ⟨by decide, (C1_amended pageC1w).2.2.1 (by decide)⟩

/-- Claim C2 (counterexample): a cache entry for restaurant_India Quality
written before save_reviews_data survives the save — save_reviews_data
invalidates only reviews_<name> and analytics namespaces — and the
subsequent get_restaurant read returns the pre-save cached value. -/
theorem C2_counterexample :
    _get_cached_data cacheC2 "restaurant_India Quality" "2024-01-01 00:00:00"
      = some "stale-presave-value"
    ∧ get_restaurant_readPath (save_reviews_data_cacheEffect cacheC2 "India Quality")
        "India Quality" "2024-01-01 00:00:00" = ReadResult.cached "stale-presave-value" := by
  decide

/-- Claim C2 (amended): save_menu_data invalidates the restaurant_<name>
and analytics cache namespaces, so a get_restaurant read issued after it
never hits the cache (it recomputes and repopulates); save_reviews_data
invalidates only the reviews_<name> and analytics namespaces, leaving the
restaurant_<name> detail entry cached, so read-after-write consistency
holds for menu saves but not for review saves. -/
theorem C2_amended (cache : List CacheRow) (name now : String) :
    get_restaurant_readPath (save_menu_data_cacheEffect cache name) name now = ReadResult.fresh
    ∧ (∀ r ∈ save_reviews_data_cacheEffect cache name,
        likeMatch ("reviews_" ++ name ++ "%").data r.cache_key.data = false
        ∧ likeMatch "analytics%".data r.cache_key.data = false) := by
  have hall : ∀ r ∈ save_menu_data_cacheEffect cache name,
      (r.cache_key == ("restaurant_" ++ name)) = false := by
    intro r hr
    unfold save_menu_data_cacheEffect _invalidate_cache_pattern at hr
    have hr1 := (List.mem_filter.1 hr).1
    have hg1 := (List.mem_filter.1 hr1).2
    simp only [Bool.not_eq_true'] at hg1
    by_cases hbe : r.cache_key = "restaurant_" ++ name
    · exfalso
      rw [hbe] at hg1
      have hT : likeMatch ("restaurant_" ++ name ++ "%").data
          ("restaurant_" ++ name).data = true :=
        likeMatch_append_percent (("restaurant_" ++ name).data)
      rw [hT] at hg1
      exact Bool.noConfusion hg1
    · simp [hbe]
  constructor
  · have hfind : List.find? (fun r => r.cache_key == ("restaurant_" ++ name))
        (save_menu_data_cacheEffect cache name) = none :=
      List.find?_eq_none.2 (fun r hr => by simp [hall r hr])
    simp [get_restaurant_readPath, _get_cached_data, hfind]
  · intro r hr
    unfold save_reviews_data_cacheEffect _invalidate_cache_pattern at hr
    have hg2 := (List.mem_filter.1 hr).2
    have hr1 := (List.mem_filter.1 hr).1
    have hg1 := (List.mem_filter.1 hr1).2
    simp only [Bool.not_eq_true'] at hg1 hg2
    exact ⟨hg1, hg2⟩

/-- Witness for C2_amended at the concrete pre-save cache state cacheC2. -/
theorem C2_witness :
    get_restaurant_readPath (save_menu_data_cacheEffect cacheC2 "India Quality")
      "India Quality" "2024-01-01 00:00:00" = ReadResult.fresh
    ∧ (likeMatch ("reviews_" ++ "India Quality" ++ "%").data
          ("restaurant_India Quality" : String).data = false
       ∧ likeMatch "analytics%".data ("restaurant_India Quality" : String).data = false) :=
  ⟨(C2_amended cacheC2 "India Quality" "2024-01-01 00:00:00").1,
   (C2_amended cacheC2 "India Quality" "2024-01-01 00:00:00").2
     ⟨"restaurant_India Quality", "stale-presave-value", "2099-01-01T00:00:00"⟩ (by decide)⟩

/-- Claim C3 (counterexample): on items with prices 10, 20 and 0 the
main_api implementation reports median 20 (the element at index len//2 of
the sorted positive prices, the upper of the two middle values), not 15.0;
and the scrapper_service implementation keeps the zero price (it only
drops None), so its count is 3, not 2. -/
theorem C3_counterexample :
    (_calculate_price_stats itemsC3).median ≠ 15
    ∧ (_calculate_detailed_price_stats itemsC3s).count ≠ 2 := by
  have h1 : _calculate_price_stats itemsC3 = ⟨10, 20, 15, 20, 2⟩ := by
    with_unfolding_all rfl
  have h2 : _calculate_detailed_price_stats itemsC3s = ⟨0, 20, 10, 10, 3, 1, 2, 0⟩ := by
    with_unfolding_all rfl
  rw [h1, h2]
  exact ⟨by norm_num, by norm_num⟩

/-- Claim C3 (amended): on items with prices 10, 20 and 0, the main_api
price statistics (which exclude non-positive prices) are count 2, min 10,
max 20, mean 15.0 and median 20 (upper middle element); the
scrapper_service statistics (which exclude only missing prices) are
count 3, min 0, max 20, mean 10.0 and median 10. -/
theorem C3_amended :
    _calculate_price_stats itemsC3 = ⟨10, 20, 15, 20, 2⟩
    ∧ _calculate_detailed_price_stats itemsC3s = ⟨0, 20, 10, 10, 3, 1, 2, 0⟩ :=
  ⟨by with_unfolding_all rfl, by with_unfolding_all rfl⟩

/-- Claim C4 (counterexample): a reachable service trace in which a second
menu job for India Quality is dispatched while the first one is still
unrecorded — two concurrent on-demand scrapes suffice, because
scrape_single_restaurant performs no in-flight check. -/
theorem C4_counterexample :
    Reach [restC4, restC4] twoDispatchC4 ∧ noOverlapB twoDispatchC4 = false := by
  constructor
  · have h2 : Reach [completeScrapeTrace "India Quality",
        completeScrapeTrace "India Quality"] [] :=
      Reach.startOnDemand "India Quality" [completeScrapeTrace "India Quality"] []
        (Reach.startOnDemand "India Quality" [] [] Reach.init)
    have h3 : Reach ([] ++ restC4 :: [completeScrapeTrace "India Quality"])
        [Act.dispatch jobC4] :=
      Reach.step [] (Act.dispatch jobC4) restC4 [completeScrapeTrace "India Quality"] [] h2
    have h4 : Reach ([restC4] ++ restC4 :: []) [Act.dispatch jobC4, Act.dispatch jobC4] :=
      Reach.step [restC4] (Act.dispatch jobC4) restC4 [] [Act.dispatch jobC4] h3
    exact h4
  · decide

/-- Claim C4 (amended): no-overlap holds within one complete-scrape
execution — its jobs are strictly sequential, each outcome recorded before
the next dispatch — but the service keeps no in-flight (target, kind)
record, so across concurrent executions a second job for the same
(target, kind) can be dispatched before the first outcome is recorded. -/
theorem C4_amended (t : String) :
    noOverlapB ((completeScrapeTrace t).reverse) = true
    ∧ ∃ run tr, Reach run tr ∧ noOverlapB tr = false := by
  constructor
  · simp [completeScrapeTrace, noOverlapB, pendingZ, countAct]
  · refine ⟨[restC4, restC4], twoDispatchC4, ?_, by decide⟩
    have h2 : Reach [completeScrapeTrace "India Quality",
        completeScrapeTrace "India Quality"] [] :=
      Reach.startOnDemand "India Quality" [completeScrapeTrace "India Quality"] []
        (Reach.startOnDemand "India Quality" [] [] Reach.init)
    have h3 : Reach ([] ++ restC4 :: [completeScrapeTrace "India Quality"])
        [Act.dispatch jobC4] :=
      Reach.step [] (Act.dispatch jobC4) restC4 [completeScrapeTrace "India Quality"] [] h2
    have h4 : Reach ([restC4] ++ restC4 :: []) [Act.dispatch jobC4, Act.dispatch jobC4] :=
      Reach.step [restC4] (Act.dispatch jobC4) restC4 [] [Act.dispatch jobC4] h3
    exact h4

/-- Claim C5 (counterexample): after 3 consecutive failures the 4th
scheduling check occurs exactly one fixed cycle_sleep after the previous
one; the code computes no min(2^N, cap) factor (shown here for cap 8),
contradicting the claim that the due time is not last + base_interval. -/
theorem C5_counterexample :
    consecutiveFailures (fun _ => false) 3 = 3
    ∧ cycleStart (fun _ => false) (fun _ => 0) 4
        = cycleStart (fun _ => false) (fun _ => 0) 3 + cycle_sleep
    ∧ cycle_sleep ≠ cycle_sleep * min (2 ^ 3) 8 := by decide

/-- Claim C5 (amended): the loop implements no error backoff.  The next
cycle (which is the next scheduling check for every target) always starts
cycle-duration + 1800 seconds after the previous one (300 seconds when the
cycle body raised), whatever the number N of consecutive failures;  in
particular the claimed last + base * min(2^N, cap) due time (cap at least
2) is never computed for any N at least 1. -/
theorem C5_amended (crash : ℕ → Bool) (d : ℕ → ℕ) (success : ℕ → Bool) (k N cap : ℕ)
    (hN : consecutiveFailures success k = N) (hN1 : 1 ≤ N) (hcap : 2 ≤ cap) :
    cycleStart crash d (k + 1)
      = cycleStart crash d k + (if crash k then d k + error_sleep else d k + cycle_sleep)
    ∧ (crash k = false → d k = 0 →
        cycleStart crash d (k + 1)
          ≠ cycleStart crash d k + cycle_sleep * min (2 ^ N) cap) := by
  constructor
  · rfl
  · intro hcr hd
    have h1 : cycleStart crash d (k + 1) = cycleStart crash d k + 1800 := by
      simp [cycleStart, cycleGap, hcr, hd, cycle_sleep]
    rw [h1]
    simp only [cycle_sleep]
    intro hEq
    have h2N : 2 ≤ 2 ^ N := by
      calc (2 : ℕ) = 2 ^ 1 := (pow_one 2).symm
      _ ≤ 2 ^ N := Nat.pow_le_pow_right (by norm_num) hN1
    have hmin : 2 ≤ min (2 ^ N) cap := le_min h2N hcap
    have hge : 3600 ≤ 1800 * min (2 ^ N) cap := by
      calc (3600 : ℕ) = 1800 * 2 := by norm_num
      _ ≤ 1800 * min (2 ^ N) cap := Nat.mul_le_mul_left 1800 hmin
    omega

/-- Witness for C5_amended after 3 consecutive failures with cap 8. -/
theorem C5_witness :
    consecutiveFailures (fun _ => false) 3 = 3
    ∧ cycleStart (fun _ => false) (fun _ => 0) 4
        ≠ cycleStart (fun _ => false) (fun _ => 0) 3 + cycle_sleep * min (2 ^ 3) 8 :=
  ⟨by decide,
    (C5_amended (fun _ => false) (fun _ => 0) (fun _ => false) 3 3 8
      (by decide) (by decide) (by decide)).2 rfl rfl⟩

/-- Claim C6 (counterexample): a batch whose only review has a short text
(and likewise an empty batch) yields no sentiment summary at all — the
sentiment_analysis key is left absent rather than set to an all-zero
record, contradicting the all-fields-zero clause. -/
theorem C6_counterexample :
    _enhance_reviews_sentiment (fun _ => some 0) [⟨"short"⟩] = none
    ∧ _enhance_reviews_sentiment (fun _ => some 0) [] = none := by decide

/-- Claim C6 (amended): whenever a sentiment summary is produced, its three
classification counts sum to total_analyzed, total_analyzed is positive,
and each distribution fraction equals count / total_analyzed rounded to 3
decimals; when no review text qualifies (total analysed would be 0) no
summary is produced at all. -/
theorem C6_amended (scorer : String → Option ℚ) (reviews : List Review)
    (sa : SentimentAnalysis)
    (h : _enhance_reviews_sentiment scorer reviews = some sa) :
    sa.positive_reviews + sa.negative_reviews + sa.neutral_reviews = sa.total_analyzed
    ∧ 0 < sa.total_analyzed
    ∧ sa.dist_positive = pyRound 3 ((sa.positive_reviews : ℚ) / (sa.total_analyzed : ℚ))
    ∧ sa.dist_negative = pyRound 3 ((sa.negative_reviews : ℚ) / (sa.total_analyzed : ℚ))
    ∧ sa.dist_neutral = pyRound 3 ((sa.neutral_reviews : ℚ) / (sa.total_analyzed : ℚ)) := by
  unfold _enhance_reviews_sentiment at h
  by_cases hre : reviews.isEmpty
  · rw [if_pos hre] at h
    exact Option.noConfusion h
  · rw [if_neg hre] at h
    by_cases hsc : (reviews.filterMap
        (fun r => if r.text.data.length > 10 then scorer r.text else none)).isEmpty
    · rw [if_pos hsc] at h
      exact Option.noConfusion h
    · rw [if_neg hsc] at h
      injection h with h'
      subst h'
      refine ⟨sentiment_filter_partition _, ?_, rfl, rfl, rfl⟩
      have hne : reviews.filterMap
          (fun r => if r.text.data.length > 10 then scorer r.text else none) ≠ [] := by
        intro hnil
        rw [hnil] at hsc
        exact hsc rfl
      exact List.length_pos.2 hne

/-- Witness for C6_amended on a one-review batch with score 1/2. -/
theorem C6_witness :
    ((⟨1/2, 1, 0, 0, 1, 1, 0, 0⟩ : SentimentAnalysis).positive_reviews
        + (⟨1/2, 1, 0, 0, 1, 1, 0, 0⟩ : SentimentAnalysis).negative_reviews
        + (⟨1/2, 1, 0, 0, 1, 1, 0, 0⟩ : SentimentAnalysis).neutral_reviews
      = (⟨1/2, 1, 0, 0, 1, 1, 0, 0⟩ : SentimentAnalysis).total_analyzed)
    ∧ 0 < (⟨1/2, 1, 0, 0, 1, 1, 0, 0⟩ : SentimentAnalysis).total_analyzed
    ∧ (⟨1/2, 1, 0, 0, 1, 1, 0, 0⟩ : SentimentAnalysis).dist_positive
        = pyRound 3 (((⟨1/2, 1, 0, 0, 1, 1, 0, 0⟩ : SentimentAnalysis).positive_reviews : ℚ)
            / ((⟨1/2, 1, 0, 0, 1, 1, 0, 0⟩ : SentimentAnalysis).total_analyzed : ℚ))
    ∧ (⟨1/2, 1, 0, 0, 1, 1, 0, 0⟩ : SentimentAnalysis).dist_negative
        = pyRound 3 (((⟨1/2, 1, 0, 0, 1, 1, 0, 0⟩ : SentimentAnalysis).negative_reviews : ℚ)
            / ((⟨1/2, 1, 0, 0, 1, 1, 0, 0⟩ : SentimentAnalysis).total_analyzed : ℚ))
    ∧ (⟨1/2, 1, 0, 0, 1, 1, 0, 0⟩ : SentimentAnalysis).dist_neutral
        = pyRound 3 (((⟨1/2, 1, 0, 0, 1, 1, 0, 0⟩ : SentimentAnalysis).neutral_reviews : ℚ)
            / ((⟨1/2, 1, 0, 0, 1, 1, 0, 0⟩ : SentimentAnalysis).total_analyzed : ℚ)) :=
  C6_amended (fun _ => some (1/2)) [⟨"excellent food here"⟩] ⟨1/2, 1, 0, 0, 1, 1, 0, 0⟩
    (by with_unfolding_all rfl)

-- === C7/C8 machinery ===

/-- Claim C7 (counterexample): cleaning is not idempotent.  The item named
a,, passes the length check (its stripped raw name has 3 characters), the
re.sub then shortens the name to a single character, and a second cleaning
pass drops the item. -/
theorem C7_counterexample :
    _clean_menu_items (_clean_menu_items itemsC7) ≠ _clean_menu_items itemsC7 := by decide

/-- Claim C7 (amended): deduplication is case-insensitive keeping the first
occurrence — the lowercased sanitised names of the output are pairwise
distinct, and of two items with equal keys only the first survives — and
cleaning is idempotent on every list whose cleaned items keep a name of at
least 3 characters and a description without surrounding whitespace; it is
not idempotent in general, because the length check precedes the
punctuation-stripping. -/
theorem C7_amended (L : List RawItem) (x y : RawItem)
    (hx : validItem x = true)
    (hkey : nameKey y = nameKey x)
    (hgood : ∀ it ∈ _clean_menu_items L,
        3 ≤ it.name.data.length ∧ pyStrip it.description = it.description) :
    ((_clean_menu_items L).map nameKey).Nodup
    ∧ _clean_menu_items [x, y] = [cleanedOf x]
    ∧ _clean_menu_items (_clean_menu_items L) = _clean_menu_items L := by
  refine ⟨(cleanAux_keys L []).1, ?_, ?_⟩
  · show cleanAux [] [x, y] = [cleanedOf x]
    unfold cleanAux
    rw [if_pos hx, if_neg (List.not_mem_nil (nameKey x))]
    suffices h : cleanAux [nameKey x] [y] = [] by rw [h]
    unfold cleanAux
    by_cases hvy : validItem y = true
    · rw [if_pos hvy, if_pos (by rw [hkey]; exact List.mem_singleton.2 rfl)]
      rfl
    · rw [if_neg hvy]
      rfl
  · show cleanAux [] (_clean_menu_items L) = _clean_menu_items L
    apply cleanAux_fixed
    · intro it hit
      obtain ⟨src, hsrc, hvsrc, heq⟩ := cleanAux_mem L [] it hit
      obtain ⟨hlen, hdesc⟩ := hgood it hit
      have hname : it.name = sanitizeName src.name := by rw [heq]; rfl
      have hstrip : pyStrip it.name = it.name := by
        rw [hname]; exact pyStrip_sanitize src.name
      constructor
      · unfold validItem
        rw [hstrip]
        have hne : it.name.data ≠ [] := by
          intro hnil
          rw [hnil] at hlen
          simp at hlen
        simp only [Bool.and_eq_true, Bool.not_eq_true']
        constructor
        · cases hl : it.name.data with
          | nil => exact absurd hl hne
          | cons a t => rfl
        · simp only [decide_eq_false_iff_not]
          omega
      · have hprice : max 0 it.price = it.price := by
          rw [heq]
          show max 0 (max 0 src.price) = max 0 src.price
          exact max_eq_right (le_max_left 0 src.price)
        have hdesclen : it.description.data.length ≤ 200 := by
          rw [heq]
          show ((pyStrip src.description).data.take 200).length ≤ 200
          rw [List.length_take]
          omega
        have htrunc : truncate200 it.description = it.description := by
          unfold truncate200
          have ht : it.description.data.take 200 = it.description.data :=
            List.take_of_length_le hdesclen
          rw [ht]
        have hsan : sanitizeName it.name = it.name := by
          rw [hname]; exact sanitize_fix src.name
        show cleanedOf it = it
        unfold cleanedOf
        rw [hsan, hdesc, htrunc, hprice]
    · exact (cleanAux_keys L []).1
    · exact fun it _ hmem => absurd hmem (List.not_mem_nil _)

/-- Witness for C7_amended on a well-behaved input list and a
case-insensitive duplicate pair. -/
theorem C7_witness :
    ((_clean_menu_items itemsC7w).map nameKey).Nodup
    ∧ _clean_menu_items
        [⟨"Chicken Tikka", 12, "", "General"⟩, ⟨"CHICKEN TIKKA", 13, "", "General"⟩]
      = [cleanedOf ⟨"Chicken Tikka", 12, "", "General"⟩]
    ∧ _clean_menu_items (_clean_menu_items itemsC7w) = _clean_menu_items itemsC7w :=
  C7_amended itemsC7w ⟨"Chicken Tikka", 12, "", "General"⟩ ⟨"CHICKEN TIKKA", 13, "", "General"⟩
    (by decide) (by decide) (by decide)

/-- Claim C8 (counterexample): the cleaned output can contain a name
shorter than 3 characters — even empty — because the length check of
main_api.py:519 runs before the punctuation-stripping re.sub of line 523:
an input named by three commas survives as the empty-named item. -/
theorem C8_counterexample :
    _clean_menu_items itemsC8 = [⟨"", 2, "", "General"⟩]
    ∧ ¬ (∀ it ∈ _clean_menu_items itemsC8, 3 ≤ it.name.data.length) := by decide

/-- Claim C8 (amended): every cleaned item has a price of at least 0
(negative prices clamped by max(0, price)) and originates, via the
cleaning transformation, from an input item that passed the name check
(stripped raw name of length at least 3); the length guarantee applies to
the raw name before punctuation-stripping, so the output name itself may be
shorter. -/
theorem C8_amended (L : List RawItem) (it : RawItem) (h : it ∈ _clean_menu_items L) :
    0 ≤ it.price
    ∧ ∃ src, src ∈ L ∧ validItem src = true ∧ it = cleanedOf src := by
  obtain ⟨src, h1, h2, h3⟩ := cleanAux_mem L [] it h
  refine ⟨?_, src, h1, h2, h3⟩
  rw [h3]
  exact le_max_left 0 src.price

/-- Witness for C8_amended at a one-item list with a negative price. -/
theorem C8_witness :
    0 ≤ (cleanedOf ⟨"Samosa", -5, " tasty ", "General"⟩).price
    ∧ ∃ src, src ∈ itemsC8w ∧ validItem src = true
        ∧ cleanedOf ⟨"Samosa", -5, " tasty ", "General"⟩ = cleanedOf src :=
  C8_amended itemsC8w (cleanedOf ⟨"Samosa", -5, " tasty ", "General"⟩) (by decide)

/-- Claim C9 (code bug): an entry written by _cache_data whose expiry
(2024-06-01 12:00) chronologically precedes the read instant
(2024-06-01 18:00) is still returned, because the stored
expires_at string uses the isoformat T separator while CURRENT_TIMESTAMP
uses a space, and in the TEXT comparison the T sorts above every
time-of-day digit — so any same-date expires_at compares greater than
now. -/
theorem C9_code_bug :
    chronLe expiresC9 nowC9 = true
    ∧ _get_cached_data (_cache_data [] "analytics_summary" "V" expiresC9)
        "analytics_summary" (sqlCurrentTimestamp nowC9) = some "V"
    ∧ textGtStr (isoformat expiresC9) (sqlCurrentTimestamp nowC9) = true := by decide

/-- Claim C10: DatabaseManager defines no log_scraping_activity method and
save_reviews_data takes two arguments while the service calls it with
three; every execution path of _scrape_single_restaurant_complete reaches
a log_scraping_activity call, so the method always raises AttributeError
(the outer handler re-raises while logging), the on-demand
scrape_single_restaurant always returns success False, and the batch wrapper
absorbs the exception so it never escapes a batch or the driving loop. -/
theorem C10_missing_logger :
    lookupDbMethod "log_scraping_activity" = none
    ∧ lookupDbMethod "save_reviews_data" = some (2, 2)
    ∧ callDbMethod "save_reviews_data" 3 = Except.error (PyErr.typeError "save_reviews_data")
    ∧ ∀ m g y : Bool,
        _scrape_single_restaurant_complete m g y
          = Except.error (PyErr.attributeError "log_scraping_activity")
        ∧ (scrape_single_restaurant m g y).success = false
        ∧ scrape_batch_entry m g y
          = { success := false, menu_success := false, reviews_success := false
              error := some "AttributeError: log_scraping_activity" } := by decide
